import Mathlib

/-!
Verification development for the PetStory repository: a shallow embedding of
the photo-analysis theme grouping, the API route handlers, the model-retry
chains and the client pages, together with theorems checking the
specification's claims against this embedding.

JavaScript conventions modelled here:
* optional string fields are plain `String`s where `""` encodes both
  `undefined` and the empty string (both are falsy in JS);
* `Record<string, T>` objects iterated with `Object.entries` are association
  lists in insertion order;
* `Math.round (a / b)` on nonnegative rationals is `(2 * a + b) / (2 * b)`
  in natural-number arithmetic (round half up).
-/

namespace PetStory

/-- JS truthiness of a string: truthy iff nonempty. -/
def truthy (s : String) : Bool := !(s == "")

/-- An analyzed photo (`AnalyzedPhoto` in `photoAnalysis`): the analysis
fields used by theme grouping plus the id and original image added by the
analyze route.  Optional fields are `""` when absent. -/
structure AnalyzedPhoto where
  id : String
  originalImage : String
  petType : String
  location : String
  activity : String
  holiday : String
  occasion : String
  mood : String
  outfit : String
  error : Option String
deriving DecidableEq, Repr

/-- A theme (`Theme` in `photoAnalysis`): a grouping of analyzed photos. -/
structure Theme where
  id : String
  name : String
  location : String
  mainActivity : String
  context : Option String
  holiday : Option String
  occasion : Option String
  photos : List AnalyzedPhoto
deriving DecidableEq, Repr

/-- State of the `findMostCommon` loop: the `counts` record, the running
maximum and the current best element. -/
structure MostCommonState where
  counts : String → Nat
  maxCount : Nat
  mostCommon : String

/-- One iteration of the `findMostCommon` loop body. -/
def findMostCommonStep (st : MostCommonState) (item : String) : MostCommonState :=
  let c := st.counts item + 1
  let counts := fun s => if s = item then c else st.counts s
  if st.maxCount < c then ⟨counts, c, item⟩ else ⟨counts, st.maxCount, st.mostCommon⟩

/-- Function `findMostCommon` from `photoAnalysis`: scans the array keeping a count
per string, and tracks the element whose count first exceeds the running
maximum.  Initial value is `arr[0]` or, when that is falsy, `unknown`. -/
def findMostCommon (arr : List String) : String :=
  let init := arr.headD ""
  (arr.foldl findMostCommonStep ⟨fun _ => 0, 0, if init = "" then "unknown" else init⟩).mostCommon

/-- Helper `capitalizeFirstLetter`: upper-case the first character and keep the rest. -/
def capitalizeFirstLetter (s : String) : String :=
  match s.data with
  | [] => ""
  | c :: rest => String.mk (c.toUpper :: rest)

/-- The length of `dropWhile` never exceeds the original length. -/
theorem length_dropWhile_le_self (p : Char → Bool) (l : List Char) :
    (l.dropWhile p).length ≤ l.length := by
  induction l with
  | nil => simp
  | cons a l ih =>
    by_cases h : p a
    · simp only [List.dropWhile, h]
      exact Nat.le_succ_of_le ih
    · simp [List.dropWhile, h]

/-- Replace every maximal run of whitespace by a single dash, as the regex
replacement of whitespace runs does in `generateThemeId`. -/
def squashWhitespaceToDash : List Char → List Char
  | [] => []
  | c :: rest =>
    if c.isWhitespace then '-' :: squashWhitespaceToDash (rest.dropWhile Char.isWhitespace)
    else c :: squashWhitespaceToDash rest
termination_by l => l.length
decreasing_by
  · simp only [List.length_cons]
    exact Nat.lt_succ_of_le (length_dropWhile_le_self ..)
  · simp

/-- Helper `generateThemeId`: lower-case the theme name and dash its whitespace. -/
def generateThemeId (themeName : String) : String :=
  String.mk (squashWhitespaceToDash themeName.toLower.data)

/-- The `groups` record of `groupPhotosByTheme`: an association list from
group keys to photo lists, in insertion order of the keys. -/
abbrev Groups := List (String × List AnalyzedPhoto)

/-- Record update `groups[key].push(photo)` after creating `groups[key] = []` if missing:
append the photo to the entry with this key, or add a new entry at the end. -/
def upsert : Groups → String → AnalyzedPhoto → Groups
  | [], key, p => [(key, [p])]
  | (k, ps) :: rest, key, p =>
    if k = key then (k, ps ++ [p]) :: rest else (k, ps) :: upsert rest key p

/-- One of the three `forEach` loops of `groupPhotosByTheme`: insert every
photo under the key computed by `keyOf`. -/
def addAll (keyOf : AnalyzedPhoto → String) (gs : Groups) (photos : List AnalyzedPhoto) : Groups :=
  photos.foldl (fun gs p => upsert gs (keyOf p) p) gs

/-- Key `holiday-` followed by the lower-cased holiday, or `unknown` when that is falsy. -/
def holidayKey (p : AnalyzedPhoto) : String :=
  "holiday-" ++ (if p.holiday.toLower = "" then "unknown" else p.holiday.toLower)

/-- Key `occasion-` followed by the lower-cased occasion, or `unknown` when that is falsy. -/
def occasionKey (p : AnalyzedPhoto) : String :=
  "occasion-" ++ (if p.occasion.toLower = "" then "unknown" else p.occasion.toLower)

/-- Key `location-` followed by the lower-cased location. -/
def locationKey (p : AnalyzedPhoto) : String :=
  "location-" ++ p.location.toLower

/-- The priority hierarchy of `groupPhotosByTheme`: a photo with a truthy
holiday is keyed by its holiday, else a truthy occasion keys it by its
occasion, else it is keyed by its location. -/
def bucketKey (p : AnalyzedPhoto) : String :=
  if truthy p.holiday then holidayKey p
  else if truthy p.occasion then occasionKey p
  else locationKey p

/-- The `groups` record built by the three loops of `groupPhotosByTheme`:
holiday photos first, then occasion photos without a holiday, then the
remaining photos keyed by location. -/
def buildGroups (analyzedPhotos : List AnalyzedPhoto) : Groups :=
  let holidayPhotos := analyzedPhotos.filter (fun p => truthy p.holiday)
  let occasionPhotos := analyzedPhotos.filter (fun p => truthy p.occasion && !truthy p.holiday)
  let remainingPhotos := analyzedPhotos.filter (fun p => !truthy p.holiday && !truthy p.occasion)
  addAll locationKey (addAll occasionKey (addAll holidayKey [] holidayPhotos) occasionPhotos)
    remainingPhotos

/-- The theme-name switch on the main location of a location-based group. -/
def locationThemeName (mainLocation : String) : String :=
  if mainLocation == "home" || mainLocation == "house" || mainLocation == "living room" ||
      mainLocation == "apartment" then "Home Sweet Home"
  else if mainLocation == "park" || mainLocation == "garden" || mainLocation == "backyard" then
    "Outdoor Adventure"
  else if mainLocation == "beach" || mainLocation == "ocean" || mainLocation == "sea" then
    "Beach Day"
  else capitalizeFirstLetter mainLocation ++ " Adventure"

/-- The body of the `for (const [groupKey, photos] of Object.entries(groups))`
loop of `groupPhotosByTheme`: derive the theme fields for one group. -/
def mkTheme (groupKey : String) (photos : List AnalyzedPhoto) : Theme :=
  let locations := photos.map (fun p => p.location.toLower)
  let activities := photos.map (fun p => p.activity.toLower)
  let mainLocation := findMostCommon locations
  let mainActivity := findMostCommon activities
  let holidays := (photos.map (fun p => p.holiday.toLower)).filter truthy
  let holiday : Option String := if holidays.length > 0 then some (findMostCommon holidays) else none
  let occasions := (photos.map (fun p => p.occasion.toLower)).filter truthy
  let occasion : Option String :=
    if occasions.length > 0 then some (findMostCommon occasions) else none
  let moods := (photos.map (fun p => p.mood.toLower)).filter truthy
  let commonMood : Option String := if moods.length > 0 then some (findMostCommon moods) else none
  let outfits := (photos.map (fun p => p.outfit.toLower)).filter truthy
  let commonOutfit : Option String :=
    if outfits.length > 0 then some (findMostCommon outfits) else none
  let withOutfit := match commonOutfit with
    | some o => " with " ++ o
    | none => ""
  let pair :=
    if groupKey.startsWith "holiday-" then
      let holidayName := capitalizeFirstLetter (holiday.getD "Holiday")
      (holidayName ++ " Celebration", holidayName ++ " celebration" ++ withOutfit)
    else if groupKey.startsWith "occasion-" then
      let occasionName := capitalizeFirstLetter (occasion.getD "Special Occasion")
      (occasionName ++ " Event", occasionName ++ " celebration" ++ withOutfit)
    else
      (locationThemeName mainLocation,
        match commonMood with
        | some m => "A " ++ m ++ " time at the " ++ mainLocation
        | none => "Time spent at the " ++ mainLocation)
  { id := generateThemeId pair.1
    name := pair.1
    location := mainLocation
    mainActivity := mainActivity
    context := some pair.2
    holiday := holiday
    occasion := occasion
    photos := photos }

/-- Function `groupPhotosByTheme` from `photoAnalysis`: build the keyed groups and
convert each to a theme, in key insertion order. -/
def groupPhotosByTheme (analyzedPhotos : List AnalyzedPhoto) : List Theme :=
  (buildGroups analyzedPhotos).map (fun kl => mkTheme kl.1 kl.2)

/-- Invariant of the `findMostCommon` loop after processing the list `done`:
the counts record the multiplicities seen so far, the running maximum bounds
every multiplicity, and the current best element attains it. -/
def MCInv (st : MostCommonState) (done : List String) : Prop :=
  (∀ s, st.counts s = done.count s)
  ∧ (∀ s, done.count s ≤ st.maxCount)
  ∧ done.count st.mostCommon = st.maxCount

theorem mcinv_step {st : MostCommonState} {done : List String} (h : MCInv st done)
    (item : String) : MCInv (findMostCommonStep st item) (done ++ [item]) := by
  obtain ⟨hc, hmax, hbest⟩ := h
  have hcount : ∀ s, (done ++ [item]).count s
      = done.count s + (if s = item then 1 else 0) := by
    intro s
    rw [List.count_append]
    by_cases hs : s = item
    · subst hs; simp
    · simp [List.count_singleton', hs, Ne.symm hs]
  unfold findMostCommonStep
  by_cases hlt : st.maxCount < st.counts item + 1
  · refine ⟨?_, ?_, ?_⟩ <;> simp only [hlt, if_true]
    · intro s
      by_cases hs : s = item
      · subst hs; simp [hcount, hc]
      · simp [hcount, hs, hc]
    · intro s
      rw [hcount s]
      by_cases hs : s = item
      · subst hs; simp [hc]
      · simp only [hs, if_false, Nat.add_zero]
        exact Nat.le_of_lt (Nat.lt_of_le_of_lt (hmax s) hlt)
    · simp [hcount, hc]
  · have hitem : item ≠ st.mostCommon := by
      intro he
      apply hlt
      rw [hc item, he, hbest]
      exact Nat.lt_succ_self _
    refine ⟨?_, ?_, ?_⟩ <;> simp only [hlt, if_false]
    · intro s
      by_cases hs : s = item
      · subst hs; simp [hcount, hc]
      · simp [hcount, hs, hc]
    · intro s
      rw [hcount s]
      by_cases hs : s = item
      · subst hs
        have hcs := hc s
        simp only [if_true, eq_self_iff_true]
        omega
      · simp only [hs, if_false, Nat.add_zero]
        exact hmax s
    · rw [hcount st.mostCommon]
      simp [Ne.symm hitem, hbest]

theorem mcinv_foldl {st : MostCommonState} {done : List String} (h : MCInv st done) :
    ∀ l : List String, MCInv (l.foldl findMostCommonStep st) (done ++ l)
  | [] => by simpa using h
  | a :: l => by
    have := mcinv_foldl (mcinv_step h a) l
    simpa using this

/-- On a nonempty list, `findMostCommon` returns an element of the list whose
multiplicity in the list is maximal. -/
theorem findMostCommon_mem_and_max (arr : List String) (h : arr ≠ []) :
    findMostCommon arr ∈ arr ∧ ∀ x, arr.count x ≤ arr.count (findMostCommon arr) := by
  have hinv : MCInv (arr.foldl findMostCommonStep
      ⟨fun _ => 0, 0, if arr.headD "" = "" then "unknown" else arr.headD ""⟩) arr := by
    have h0 : MCInv ⟨fun _ => 0, 0, if arr.headD "" = "" then "unknown" else arr.headD ""⟩ [] :=
      ⟨fun _ => rfl, fun _ => Nat.le_refl 0, rfl⟩
    simpa using mcinv_foldl h0 arr
  obtain ⟨_, hmax, hbest⟩ := hinv
  have hres : findMostCommon arr
      = (arr.foldl findMostCommonStep
          ⟨fun _ => 0, 0, if arr.headD "" = "" then "unknown" else arr.headD ""⟩).mostCommon := rfl
  rw [hres]
  constructor
  · apply List.count_pos_iff.mp
    rw [hbest]
    obtain ⟨a, l, rfl⟩ := List.exists_cons_of_ne_nil h
    calc 0 < (a :: l).count a := List.count_pos_iff.mpr (List.mem_cons_self a l)
    _ ≤ _ := hmax a
  · intro x
    rw [hbest]
    exact hmax x

theorem mkTheme_photos (k : String) (ps : List AnalyzedPhoto) : (mkTheme k ps).photos = ps := rfl

theorem mkTheme_location (k : String) (ps : List AnalyzedPhoto) :
    (mkTheme k ps).location = findMostCommon (ps.map (fun p => p.location.toLower)) := rfl

theorem mkTheme_mainActivity (k : String) (ps : List AnalyzedPhoto) :
    (mkTheme k ps).mainActivity = findMostCommon (ps.map (fun p => p.activity.toLower)) := rfl

/-- Well-formedness of the `groups` record: keys are distinct, every photo
sits under its own `bucketKey`, and no group is empty. -/
def GroupsWF (gs : Groups) : Prop :=
  ((gs.map Prod.fst).Nodup)
  ∧ (∀ kl ∈ gs, ∀ q ∈ kl.2, bucketKey q = kl.1)
  ∧ (∀ kl ∈ gs, kl.2 ≠ [])

theorem upsert_fst_of_mem {gs : Groups} {k : String} (p : AnalyzedPhoto)
    (h : k ∈ gs.map Prod.fst) : (upsert gs k p).map Prod.fst = gs.map Prod.fst := by
  induction gs with
  | nil => simp at h
  | cons kl rest ih =>
    simp only [List.map_cons, List.mem_cons] at h
    obtain ⟨k', ps'⟩ := kl
    by_cases hk : k' = k
    · simp [upsert, hk]
    · rcases h with h | h
      · exact absurd h.symm hk
      · simp [upsert, hk, ih h]

theorem upsert_fst_of_not_mem {gs : Groups} {k : String} (p : AnalyzedPhoto)
    (h : k ∉ gs.map Prod.fst) : (upsert gs k p).map Prod.fst = gs.map Prod.fst ++ [k] := by
  induction gs with
  | nil => simp [upsert]
  | cons kl rest ih =>
    obtain ⟨k', ps'⟩ := kl
    simp only [List.map_cons, List.mem_cons, not_or] at h
    have hk : k' ≠ k := fun he => h.1 he.symm
    simp [upsert, hk, ih h.2]

theorem upsert_keys_nodup {gs : Groups} {k : String} (p : AnalyzedPhoto)
    (h : (gs.map Prod.fst).Nodup) : ((upsert gs k p).map Prod.fst).Nodup := by
  by_cases hm : k ∈ gs.map Prod.fst
  · rw [upsert_fst_of_mem p hm]; exact h
  · rw [upsert_fst_of_not_mem p hm]
    refine List.Nodup.append h (List.nodup_singleton k) ?_
    intro a ha hb
    simp only [List.mem_singleton] at hb
    exact hm (hb ▸ ha)

theorem upsert_sound {gs : Groups} {k : String} {p : AnalyzedPhoto}
    (h : ∀ kl ∈ gs, ∀ q ∈ kl.2, bucketKey q = kl.1) (hp : bucketKey p = k) :
    ∀ kl ∈ upsert gs k p, ∀ q ∈ kl.2, bucketKey q = kl.1 := by
  induction gs with
  | nil =>
    intro kl hkl q hq
    simp only [upsert, List.mem_singleton] at hkl
    subst hkl
    simp only [List.mem_singleton] at hq
    subst hq
    exact hp
  | cons kl0 rest ih =>
    obtain ⟨k', ps'⟩ := kl0
    intro kl hkl q hq
    by_cases hk : k' = k
    · simp only [upsert, hk, if_true] at hkl
      rcases List.mem_cons.mp hkl with h1 | h1
      · subst h1
        simp only at hq
        rcases List.mem_append.mp hq with h2 | h2
        · exact h (k, ps') (by simp [hk]) q (by simpa [hk] using h2)
        · simp only [List.mem_singleton] at h2
          subst h2; exact hp
      · exact h kl (List.mem_cons_of_mem _ h1) q hq
    · simp only [upsert, hk, if_false] at hkl
      rcases List.mem_cons.mp hkl with h1 | h1
      · subst h1
        exact h (k', ps') (List.mem_cons_self _ _) q hq
      · exact ih (fun kl2 hkl2 => h kl2 (List.mem_cons_of_mem _ hkl2)) kl h1 q hq

theorem upsert_nonempty {gs : Groups} {k : String} {p : AnalyzedPhoto}
    (h : ∀ kl ∈ gs, kl.2 ≠ []) : ∀ kl ∈ upsert gs k p, kl.2 ≠ [] := by
  induction gs with
  | nil =>
    intro kl hkl
    simp only [upsert, List.mem_singleton] at hkl
    subst hkl; simp
  | cons kl0 rest ih =>
    obtain ⟨k', ps'⟩ := kl0
    intro kl hkl
    by_cases hk : k' = k
    · simp only [upsert, hk, if_true] at hkl
      rcases List.mem_cons.mp hkl with h1 | h1
      · subst h1; simp
      · exact h kl (List.mem_cons_of_mem _ h1)
    · simp only [upsert, hk, if_false] at hkl
      rcases List.mem_cons.mp hkl with h1 | h1
      · subst h1; exact h (k', ps') (List.mem_cons_self _ _)
      · exact ih (fun kl2 hkl2 => h kl2 (List.mem_cons_of_mem _ hkl2)) kl h1

theorem upsert_flat_perm (gs : Groups) (k : String) (p : AnalyzedPhoto) :
    ((upsert gs k p).flatMap Prod.snd).Perm ((gs.flatMap Prod.snd) ++ [p]) := by
  induction gs with
  | nil => simp [upsert]
  | cons kl0 rest ih =>
    obtain ⟨k', ps'⟩ := kl0
    by_cases hk : k' = k
    · simp only [upsert, hk, if_true, List.flatMap_cons]
      have h1 : ps' ++ [p] ++ rest.flatMap Prod.snd = ps' ++ ([p] ++ rest.flatMap Prod.snd) :=
        List.append_assoc ..
      have h2 : (ps' ++ ([p] ++ rest.flatMap Prod.snd)).Perm
          (ps' ++ (rest.flatMap Prod.snd ++ [p])) :=
        List.Perm.append_left _ List.perm_append_comm
      have h3 : ps' ++ (rest.flatMap Prod.snd ++ [p]) = ps' ++ rest.flatMap Prod.snd ++ [p] :=
        (List.append_assoc ..).symm
      rw [h1, ← h3]
      exact h2
    · simp only [upsert, hk, if_false, List.flatMap_cons]
      have h2 : (ps' ++ (upsert rest k p).flatMap Prod.snd).Perm
          (ps' ++ (rest.flatMap Prod.snd ++ [p])) :=
        List.Perm.append_left _ ih
      have h3 : ps' ++ (rest.flatMap Prod.snd ++ [p]) = ps' ++ rest.flatMap Prod.snd ++ [p] :=
        (List.append_assoc ..).symm
      rw [← h3]
      exact h2

theorem addAll_wf (keyOf : AnalyzedPhoto → String) :
    ∀ (photos : List AnalyzedPhoto) (gs : Groups),
      (∀ p ∈ photos, keyOf p = bucketKey p) → GroupsWF gs → GroupsWF (addAll keyOf gs photos)
  | [], gs, _, hwf => hwf
  | p :: rest, gs, hkey, hwf => by
    have hp : keyOf p = bucketKey p := hkey p (List.mem_cons_self ..)
    have hwf' : GroupsWF (upsert gs (keyOf p) p) := by
      obtain ⟨hnd, hsound, hne⟩ := hwf
      exact ⟨upsert_keys_nodup p hnd, upsert_sound hsound hp.symm, upsert_nonempty hne⟩
    have := addAll_wf keyOf rest (upsert gs (keyOf p) p)
      (fun q hq => hkey q (List.mem_cons_of_mem _ hq)) hwf'
    simpa [addAll] using this

theorem addAll_flat_perm (keyOf : AnalyzedPhoto → String) :
    ∀ (photos : List AnalyzedPhoto) (gs : Groups),
      ((addAll keyOf gs photos).flatMap Prod.snd).Perm ((gs.flatMap Prod.snd) ++ photos)
  | [], gs => by simp [addAll]
  | p :: rest, gs => by
    have h1 := addAll_flat_perm keyOf rest (upsert gs (keyOf p) p)
    have h2 : ((upsert gs (keyOf p) p).flatMap Prod.snd ++ rest).Perm
        ((gs.flatMap Prod.snd ++ [p]) ++ rest) :=
      (upsert_flat_perm gs (keyOf p) p).append_right rest
    have h3 : (gs.flatMap Prod.snd ++ [p]) ++ rest = gs.flatMap Prod.snd ++ (p :: rest) := by
      simp
    have : ((addAll keyOf (upsert gs (keyOf p) p) rest).flatMap Prod.snd).Perm
        (gs.flatMap Prod.snd ++ (p :: rest)) := (h1.trans h2).trans (by rw [h3])
    simpa [addAll] using this

/-- The three filtered loops of `groupPhotosByTheme` insert each photo under
exactly its `bucketKey`. -/
theorem buildGroups_wf (photos : List AnalyzedPhoto) : GroupsWF (buildGroups photos) := by
  unfold buildGroups
  apply addAll_wf
  · intro p hp
    rw [List.mem_filter] at hp
    simp only [Bool.and_eq_true, Bool.not_eq_true'] at hp
    simp [bucketKey, hp.2.1, hp.2.2]
  apply addAll_wf
  · intro p hp
    rw [List.mem_filter] at hp
    simp only [Bool.and_eq_true, Bool.not_eq_true'] at hp
    simp [bucketKey, hp.2.1, hp.2.2]
  apply addAll_wf
  · intro p hp
    rw [List.mem_filter] at hp
    simp [bucketKey, hp.2]
  exact ⟨List.nodup_nil, by simp, by simp⟩

/-- The three filters of `groupPhotosByTheme` partition the input. -/
theorem filters_partition_perm (photos : List AnalyzedPhoto) :
    ((photos.filter (fun p => truthy p.holiday))
      ++ ((photos.filter (fun p => truthy p.occasion && !truthy p.holiday))
        ++ (photos.filter (fun p => !truthy p.holiday && !truthy p.occasion)))).Perm photos := by
  have hsplit2 : ((photos.filter (fun p => truthy p.occasion && !truthy p.holiday))
      ++ (photos.filter (fun p => !truthy p.holiday && !truthy p.occasion))).Perm
      (photos.filter (fun p => !truthy p.holiday)) := by
    have h1 := List.filter_append_perm (fun p => truthy p.occasion)
      (photos.filter (fun p => !truthy p.holiday))
    have e1 : (photos.filter (fun p => !truthy p.holiday)).filter (fun p => truthy p.occasion)
        = photos.filter (fun p => truthy p.occasion && !truthy p.holiday) := by
      simp [List.filter_filter]
    have e2 : (photos.filter (fun p => !truthy p.holiday)).filter (fun p => !truthy p.occasion)
        = photos.filter (fun p => !truthy p.holiday && !truthy p.occasion) := by
      rw [List.filter_filter]
      apply List.filter_congr
      intro p _
      cases truthy p.holiday <;> cases truthy p.occasion <;> rfl
    rw [e1, e2] at h1
    exact h1
  have h2 := List.filter_append_perm (fun p => truthy p.holiday) photos
  exact ((List.Perm.append_left _ hsplit2).trans h2)

theorem buildGroups_flat_perm (photos : List AnalyzedPhoto) :
    ((buildGroups photos).flatMap Prod.snd).Perm photos := by
  unfold buildGroups
  have h1 := addAll_flat_perm locationKey
    (photos.filter (fun p => !truthy p.holiday && !truthy p.occasion))
    (addAll occasionKey (addAll holidayKey [] (photos.filter (fun p => truthy p.holiday)))
      (photos.filter (fun p => truthy p.occasion && !truthy p.holiday)))
  have h2 := (addAll_flat_perm occasionKey
    (photos.filter (fun p => truthy p.occasion && !truthy p.holiday))
    (addAll holidayKey [] (photos.filter (fun p => truthy p.holiday)))).append_right
    (photos.filter (fun p => !truthy p.holiday && !truthy p.occasion))
  have h3 := (((addAll_flat_perm holidayKey (photos.filter (fun p => truthy p.holiday))
    []).append_right
    (photos.filter (fun p => truthy p.occasion && !truthy p.holiday))).append_right
    (photos.filter (fun p => !truthy p.holiday && !truthy p.occasion)))
  refine ((h1.trans h2).trans h3).trans ?_
  have := filters_partition_perm photos
  simpa using this

theorem nodup_all_eq_length_le_one {α : Type _} (l : List α) (a : α) (hnd : l.Nodup)
    (hall : ∀ x ∈ l, x = a) : l.length ≤ 1 := by
  match l with
  | [] => simp
  | [_] => simp
  | x :: y :: _ =>
    exfalso
    have hx := hall x (by simp)
    have hy := hall y (by simp)
    rw [List.nodup_cons] at hnd
    exact hnd.1 (by simp [hx, hy])

theorem buildGroups_exists_mem {photos : List AnalyzedPhoto} {p : AnalyzedPhoto}
    (h : p ∈ photos) : ∃ kl ∈ buildGroups photos, p ∈ kl.2 := by
  have hperm := buildGroups_flat_perm photos
  have : p ∈ (buildGroups photos).flatMap Prod.snd := hperm.mem_iff.mpr h
  exact List.mem_flatMap.mp this

theorem buildGroups_filter_mem_length {photos : List AnalyzedPhoto} {p : AnalyzedPhoto}
    (h : p ∈ photos) :
    ((buildGroups photos).filter (fun kl => p ∈ kl.2)).length = 1 := by
  obtain ⟨hnd, hsound, _⟩ := buildGroups_wf photos
  have hge : 1 ≤ ((buildGroups photos).filter (fun kl => p ∈ kl.2)).length := by
    obtain ⟨kl, hkl, hp⟩ := buildGroups_exists_mem h
    apply List.length_pos.mpr
    intro hemp
    have : kl ∈ (buildGroups photos).filter (fun kl => p ∈ kl.2) :=
      List.mem_filter.mpr ⟨hkl, by simpa using hp⟩
    rw [hemp] at this
    simp at this
  have hle : ((buildGroups photos).filter (fun kl => p ∈ kl.2)).length ≤ 1 := by
    set F := (buildGroups photos).filter (fun kl => p ∈ kl.2) with hF
    have hsub : F.Sublist (buildGroups photos) := List.filter_sublist _
    have hndF : (F.map Prod.fst).Nodup := hnd.sublist (hsub.map Prod.fst)
    have hall : ∀ x ∈ F.map Prod.fst, x = bucketKey p := by
      intro x hx
      obtain ⟨kl, hklF, rfl⟩ := List.mem_map.mp hx
      have hm := List.mem_filter.mp hklF
      exact (hsound kl hm.1 p (by simpa using hm.2)).symm
    have := nodup_all_eq_length_le_one (F.map Prod.fst) (bucketKey p) hndF hall
    simpa using this
  omega

/-- C1: `groupPhotosByTheme` partitions the analyzed photos into themes
according to the priority hierarchy captured by `bucketKey` (holiday first,
then occasion, then location, each lower-cased): the concatenation of all
theme photo lists is a permutation of the input, each input photo appears in
exactly one returned theme, and two input photos share a theme exactly when
the hierarchy assigns them the same bucket. -/
theorem groupPhotosByTheme_partition (photos : List AnalyzedPhoto) :
    ((groupPhotosByTheme photos).flatMap Theme.photos).Perm photos
    ∧ (∀ p ∈ photos, ((groupPhotosByTheme photos).filter (fun t => p ∈ t.photos)).length = 1)
    ∧ (∀ p ∈ photos, ∀ q ∈ photos,
        (∃ t ∈ groupPhotosByTheme photos, p ∈ t.photos ∧ q ∈ t.photos)
          ↔ bucketKey p = bucketKey q) := by
  obtain ⟨hnd, hsound, _⟩ := buildGroups_wf photos
  refine ⟨?_, ?_, ?_⟩
  · have : (groupPhotosByTheme photos).flatMap Theme.photos
        = (buildGroups photos).flatMap Prod.snd := by
      simp [groupPhotosByTheme, List.flatMap_map, mkTheme_photos, Function.comp]
    rw [this]
    exact buildGroups_flat_perm photos
  · intro p hp
    have heq : ((groupPhotosByTheme photos).filter (fun t => p ∈ t.photos)).length
        = ((buildGroups photos).filter (fun kl => p ∈ kl.2)).length := by
      rw [← List.countP_eq_length_filter, ← List.countP_eq_length_filter,
        groupPhotosByTheme, List.countP_map]
      apply List.countP_congr
      intro kl _
      simp [Function.comp, mkTheme_photos]
    rw [heq]
    exact buildGroups_filter_mem_length hp
  · intro p hp q hq
    constructor
    · rintro ⟨t, ht, htp, htq⟩
      obtain ⟨kl, hkl, rfl⟩ := List.mem_map.mp ht
      rw [mkTheme_photos] at htp htq
      rw [hsound kl hkl p htp, hsound kl hkl q htq]
    · intro hkey
      obtain ⟨klp, hklp, hp2⟩ := buildGroups_exists_mem hp
      obtain ⟨klq, hklq, hq2⟩ := buildGroups_exists_mem hq
      have hfst : klp.1 = klq.1 := by
        rw [← hsound klp hklp p hp2, ← hsound klq hklq q hq2, hkey]
      have hsame : klp = klq := List.inj_on_of_nodup_map hnd hklp hklq hfst
      refine ⟨mkTheme klp.1 klp.2, ?_, ?_, ?_⟩
      · apply List.mem_map.mpr
        exact ⟨klp, hklp, rfl⟩
      · rw [mkTheme_photos]; exact hp2
      · rw [mkTheme_photos, hsame]; exact hq2

theorem groupPhotosByTheme_theme_shape {photos : List AnalyzedPhoto} {t : Theme}
    (h : t ∈ groupPhotosByTheme photos) :
    t.photos ≠ []
    ∧ t.location = findMostCommon (t.photos.map (fun p => p.location.toLower))
    ∧ t.mainActivity = findMostCommon (t.photos.map (fun p => p.activity.toLower)) := by
  obtain ⟨kl, hkl, rfl⟩ := List.mem_map.mp h
  obtain ⟨_, _, hne⟩ := buildGroups_wf photos
  exact ⟨by rw [mkTheme_photos]; exact hne kl hkl,
    by rw [mkTheme_location, mkTheme_photos],
    by rw [mkTheme_mainActivity, mkTheme_photos]⟩

/-- C2: on every nonempty list of strings `findMostCommon` returns an element
of maximal multiplicity; consequently each theme's `mainActivity` and
`location` occur at least as often as any other lower-cased activity or
location among that theme's photos. -/
theorem findMostCommon_maximal :
    (∀ arr : List String, arr ≠ [] →
      findMostCommon arr ∈ arr ∧ ∀ x, arr.count x ≤ arr.count (findMostCommon arr))
    ∧ ∀ (photos : List AnalyzedPhoto), ∀ t ∈ groupPhotosByTheme photos,
        (t.mainActivity ∈ t.photos.map (fun p => p.activity.toLower)
          ∧ ∀ x, (t.photos.map (fun p => p.activity.toLower)).count x
              ≤ (t.photos.map (fun p => p.activity.toLower)).count t.mainActivity)
        ∧ (t.location ∈ t.photos.map (fun p => p.location.toLower)
          ∧ ∀ x, (t.photos.map (fun p => p.location.toLower)).count x
              ≤ (t.photos.map (fun p => p.location.toLower)).count t.location) := by
  refine ⟨findMostCommon_mem_and_max, ?_⟩
  intro photos t ht
  obtain ⟨hne, hloc, hact⟩ := groupPhotosByTheme_theme_shape ht
  have hne2 : t.photos.map (fun p => p.activity.toLower) ≠ [] := by
    simpa using hne
  have hne3 : t.photos.map (fun p => p.location.toLower) ≠ [] := by
    simpa using hne
  constructor
  · rw [hact]
    exact findMostCommon_mem_and_max _ hne2
  · rw [hloc]
    exact findMostCommon_mem_and_max _ hne3

/-- A sample analyzed photo used by concrete witnesses. -/
def samplePhotoA : AnalyzedPhoto :=
  { id := "a", originalImage := "data-a", petType := "dog", location := "Park",
    activity := "running", holiday := "", occasion := "", mood := "", outfit := "",
    error := none }

/-- A second sample analyzed photo used by concrete witnesses. -/
def samplePhotoB : AnalyzedPhoto :=
  { id := "b", originalImage := "data-b", petType := "cat", location := "home",
    activity := "sleeping", holiday := "Christmas", occasion := "", mood := "", outfit := "",
    error := none }

theorem groupPhotosByTheme_partition_witness :
    ((groupPhotosByTheme [samplePhotoA, samplePhotoB]).filter
      (fun t => samplePhotoA ∈ t.photos)).length = 1 :=
  (groupPhotosByTheme_partition [samplePhotoA, samplePhotoB]).2.1 samplePhotoA (by decide)

theorem findMostCommon_maximal_witness :
    findMostCommon ["a", "b", "a"] ∈ ["a", "b", "a"] :=
  (findMostCommon_maximal.1 ["a", "b", "a"] (by decide)).1

/-- A photo as posted to the API routes: an id and a base64 data string. -/
structure InPhoto where
  id : String
  base64 : String
deriving DecidableEq, Repr

/-- The characters after the first occurrence of `c` (all of them). -/
def charsAfterFirst (c : Char) : List Char → List Char
  | [] => []
  | x :: rest => if x = c then rest else charsAfterFirst c rest

/-- Extraction `photo.base64.split(',')[1]` when the string has a comma, else the whole string:
the second comma-separated field is the text between the first comma and the
next comma (or the end of the string). -/
def extractBase64 (s : String) : String :=
  if s.data.contains ',' then
    String.mk ((charsAfterFirst ',' s.data).takeWhile (fun x => x ≠ ','))
  else s

/-- The result object produced by `analyzePhoto` (the external vision
analysis); only the fields consumed by theme grouping are modelled. -/
structure AnalysisResult where
  petType : String
  location : String
  activity : String
  holiday : String
  occasion : String
  mood : String
  outfit : String
deriving DecidableEq, Repr

/-- Spread `...result` extended with the photo id and original image. -/
def toAnalyzed (photo : InPhoto) (r : AnalysisResult) : AnalyzedPhoto :=
  { id := photo.id, originalImage := photo.base64, petType := r.petType,
    location := r.location, activity := r.activity, holiday := r.holiday,
    occasion := r.occasion, mood := r.mood, outfit := r.outfit, error := none }

/-- The catch branch of the per-photo closure in the analyze route: placeholder
values together with an error message, plus the preserved id and image. -/
def fallbackAnalyzed (photo : InPhoto) (msg : String) : AnalyzedPhoto :=
  { id := photo.id, originalImage := photo.base64, petType := "pet",
    location := "unknown", activity := "posing", holiday := "", occasion := "",
    mood := "", outfit := "", error := some ("Failed to analyze: " ++ msg) }

/-- The per-photo closure of the analyze route: extract the base64 payload,
validate it, call the analysis, and fall back to placeholders on any error.
The external `analyzePhoto` call is a parameter returning `Except`. -/
def processPhoto (analyze : String → Except String AnalysisResult) (photo : InPhoto) :
    AnalyzedPhoto :=
  let b := extractBase64 photo.base64
  if b = "" ∨ b.length < 100 then fallbackAnalyzed photo "Invalid image data"
  else
    match analyze b with
    | .ok r => toAnalyzed photo r
    | .error msg => fallbackAnalyzed photo msg

/-- The `for (let i = 0; i < photos.length; i += concurrencyLimit)` loop with
`concurrencyLimit = 2`: each iteration maps the per-photo closure over
`photos.slice(i, i + 2)` and appends the batch results. -/
def processBatches (analyze : String → Except String AnalysisResult) :
    List InPhoto → List AnalyzedPhoto
  | [] => []
  | [p] => [processPhoto analyze p]
  | p :: q :: rest => processPhoto analyze p :: processPhoto analyze q :: processBatches analyze rest

/-- The successive `photos.slice(i, i + 2)` batches taken by the loop. -/
def batchesOf2 : List InPhoto → List (List InPhoto)
  | [] => []
  | [p] => [[p]]
  | p :: q :: rest => [p, q] :: batchesOf2 rest

/-- The JSON body of a successful analyze response. -/
structure AnalyzeResponse where
  success : Bool
  analyzedPhotos : List AnalyzedPhoto
  themes : List Theme
deriving Repr

namespace AnalyzePhotosRoute

/-- The analyze-photos `POST` handler: reject an empty photo list with a 400
error, otherwise analyze the photos in batches of 2 and group them into
themes.  `.error` carries the HTTP status and message. -/
def POST (analyze : String → Except String AnalysisResult) (photos : List InPhoto) :
    Except (Nat × String) AnalyzeResponse :=
  if photos.isEmpty then .error (400, "No photos provided or invalid format")
  else
    let analyzedPhotos := processBatches analyze photos
    .ok { success := true, analyzedPhotos := analyzedPhotos,
          themes := groupPhotosByTheme analyzedPhotos }

end AnalyzePhotosRoute

theorem processBatches_eq_map (analyze : String → Except String AnalysisResult) :
    ∀ photos : List InPhoto, processBatches analyze photos = photos.map (processPhoto analyze)
  | [] => rfl
  | [_] => rfl
  | p :: q :: rest => by
    simp only [processBatches, List.map_cons]
    rw [processBatches_eq_map analyze rest]

theorem batchesOf2_flatten : ∀ photos : List InPhoto, (batchesOf2 photos).flatten = photos
  | [] => rfl
  | [_] => rfl
  | p :: q :: rest => by
    simp only [batchesOf2, List.flatten_cons]
    rw [batchesOf2_flatten rest]
    rfl

theorem batchesOf2_le_two : ∀ photos : List InPhoto, ∀ b ∈ batchesOf2 photos, b.length ≤ 2
  | [], _, hb => by simp [batchesOf2] at hb
  | [p], b, hb => by
    simp only [batchesOf2, List.mem_singleton] at hb
    subst hb; simp
  | p :: q :: rest, b, hb => by
    simp only [batchesOf2, List.mem_cons] at hb
    rcases hb with hb | hb
    · subst hb; simp
    · exact batchesOf2_le_two rest b hb

theorem processBatches_eq_flat_batches (analyze : String → Except String AnalysisResult) :
    ∀ photos : List InPhoto,
      processBatches analyze photos
        = (batchesOf2 photos).flatMap (fun b => b.map (processPhoto analyze))
  | [] => rfl
  | [_] => rfl
  | p :: q :: rest => by
    simp only [processBatches, batchesOf2, List.flatMap_cons]
    rw [processBatches_eq_flat_batches analyze rest]
    rfl

theorem processPhoto_id (analyze : String → Except String AnalysisResult) (photo : InPhoto) :
    (processPhoto analyze photo).id = photo.id
    ∧ (processPhoto analyze photo).originalImage = photo.base64 := by
  unfold processPhoto
  by_cases h : extractBase64 photo.base64 = "" ∨ (extractBase64 photo.base64).length < 100
  · simp [h, fallbackAnalyzed]
  · simp only [h, if_false]
    cases analyze (extractBase64 photo.base64) <;> simp [toAnalyzed, fallbackAnalyzed]

/-- Default values used only to state indexed lookups. -/
def defaultInPhoto : InPhoto := { id := "", base64 := "" }

/-- Default analyzed photo used only to state indexed lookups. -/
def defaultAnalyzed : AnalyzedPhoto :=
  { id := "", originalImage := "", petType := "", location := "", activity := "",
    holiday := "", occasion := "", mood := "", outfit := "", error := none }

/-- C3: on a non-empty posted photo list the analyze endpoint succeeds,
its results are exactly the per-photo analyses of the consecutive
`slice(i, i+2)` batches (each of size at most 2, concatenating back to the
input), there is exactly one result per input photo in input order, and the
i-th result carries the id and originalImage of the i-th input photo. -/
theorem analyzePhotos_POST_batches (analyze : String → Except String AnalysisResult)
    (photos : List InPhoto) (h : photos ≠ []) :
    ∃ resp, AnalyzePhotosRoute.POST analyze photos = .ok resp
      ∧ resp.analyzedPhotos = (batchesOf2 photos).flatMap (fun b => b.map (processPhoto analyze))
      ∧ (∀ b ∈ batchesOf2 photos, b.length ≤ 2)
      ∧ (batchesOf2 photos).flatten = photos
      ∧ resp.analyzedPhotos = photos.map (processPhoto analyze)
      ∧ resp.analyzedPhotos.length = photos.length
      ∧ ∀ i, i < photos.length →
          (resp.analyzedPhotos.getD i defaultAnalyzed).id = (photos.getD i defaultInPhoto).id
          ∧ (resp.analyzedPhotos.getD i defaultAnalyzed).originalImage
            = (photos.getD i defaultInPhoto).base64 := by
  have hne : photos.isEmpty = false := by
    cases photos with
    | nil => exact absurd rfl h
    | cons a l => rfl
  refine ⟨{ success := true, analyzedPhotos := processBatches analyze photos,
            themes := groupPhotosByTheme (processBatches analyze photos) }, ?_, ?_, ?_, ?_, ?_, ?_, ?_⟩
  · simp [AnalyzePhotosRoute.POST, hne]
  · exact processBatches_eq_flat_batches analyze photos
  · exact batchesOf2_le_two photos
  · exact batchesOf2_flatten photos
  · exact processBatches_eq_map analyze photos
  · simp [processBatches_eq_map analyze photos]
  · intro i hi
    simp only [processBatches_eq_map analyze photos]
    have hgd : ∀ (f : InPhoto → AnalyzedPhoto),
        (photos.map f).getD i defaultAnalyzed = f (photos.getD i defaultInPhoto) := by
      intro f
      simp [List.getD_eq_getElem?_getD, List.getElem?_map, List.getElem?_eq_getElem hi]
    rw [hgd]
    exact processPhoto_id analyze (photos.getD i defaultInPhoto)

/-- C9: an analysis failure for one photo does not fail the analyze request:
the response is still a success containing one analysis per photo, and the
failed photo's entry carries the placeholder petType, location and activity,
the error message, and its preserved id and originalImage. -/
theorem analyzePhotos_photo_failure (analyze : String → Except String AnalysisResult)
    (photos : List InPhoto) (h : photos ≠ []) :
    ∃ resp, AnalyzePhotosRoute.POST analyze photos = .ok resp
      ∧ resp.success = true
      ∧ resp.analyzedPhotos = photos.map (processPhoto analyze)
      ∧ ∀ photo ∈ photos, ∀ msg : String,
          ¬(extractBase64 photo.base64 = "" ∨ (extractBase64 photo.base64).length < 100) →
          analyze (extractBase64 photo.base64) = .error msg →
          processPhoto analyze photo =
            { id := photo.id, originalImage := photo.base64, petType := "pet",
              location := "unknown", activity := "posing", holiday := "", occasion := "",
              mood := "", outfit := "",
              error := some ("Failed to analyze: " ++ msg) } := by
  have hne : photos.isEmpty = false := by
    cases photos with
    | nil => exact absurd rfl h
    | cons a l => rfl
  refine ⟨{ success := true, analyzedPhotos := processBatches analyze photos,
            themes := groupPhotosByTheme (processBatches analyze photos) }, ?_, rfl,
      processBatches_eq_map analyze photos, ?_⟩
  · simp [AnalyzePhotosRoute.POST, hne]
  · intro photo _ msg hvalid hfail
    unfold processPhoto
    simp only [hvalid, if_false, hfail]
    rfl

/-- A base64 payload long enough to pass the route's validity check. -/
def longB64 : String := String.mk (List.replicate 120 'x')

/-- A concrete analysis function that always succeeds. -/
def sampleAnalyzeOk : String → Except String AnalysisResult :=
  fun _ => .ok { petType := "dog", location := "park", activity := "running",
                 holiday := "", occasion := "", mood := "", outfit := "" }

/-- A concrete analysis function that always fails. -/
def sampleAnalyzeFail : String → Except String AnalysisResult :=
  fun _ => .error "API down"

theorem analyzePhotos_POST_batches_witness :
    ∃ resp, AnalyzePhotosRoute.POST sampleAnalyzeOk [{ id := "a", base64 := longB64 }] = .ok resp
      ∧ resp.analyzedPhotos.length = 1 := by
  obtain ⟨resp, h1, _, _, _, _, h6, _⟩ :=
    analyzePhotos_POST_batches sampleAnalyzeOk [{ id := "a", base64 := longB64 }]
      (List.cons_ne_nil _ _)
  exact ⟨resp, h1, by rw [h6]; rfl⟩

theorem analyzePhotos_photo_failure_witness :
    processPhoto sampleAnalyzeFail { id := "a", base64 := longB64 } =
      { id := "a", originalImage := longB64, petType := "pet", location := "unknown",
        activity := "posing", holiday := "", occasion := "", mood := "", outfit := "",
        error := some ("Failed to analyze: " ++ "API down") } := by
  obtain ⟨resp, _, _, _, h4⟩ :=
    analyzePhotos_photo_failure sampleAnalyzeFail [{ id := "a", base64 := longB64 }]
      (List.cons_ne_nil _ _)
  exact h4 { id := "a", base64 := longB64 } (by simp) "API down" (by decide) rfl

/-- Whether `needle` occurs at the start of `hay` (as character lists). -/
def startsWithChars : List Char → List Char → Bool
  | [], _ => true
  | _ :: _, [] => false
  | n :: ns, h :: hs => n = h && startsWithChars ns hs

/-- Whether `needle` occurs anywhere in `hay` (as character lists). -/
def hasSubChars (needle : List Char) : List Char → Bool
  | [] => startsWithChars needle []
  | h :: hs => startsWithChars needle (h :: hs) || hasSubChars needle hs

/-- JS `hay.includes(needle)` for strings. -/
def strContainsSub (hay needle : String) : Bool := hasSubChars needle.data hay.data

/-- An error a model-retry loop tolerates:
`error.message.includes('404') || error.message.includes('not supported')`. -/
def toleratedModelError (msg : String) : Bool :=
  strContainsSub msg "404" || strContainsSub msg "not supported"

/-- The `for (const model of modelsToTry)` retry loop shared by the
openai-service functions: call each model in order; a success returns
immediately, a tolerated error moves to the next model, any other error is
rethrown, and exhaustion returns the fixed fallback value.  The first
component records the models attempted, in order. -/
def modelFallbackLoop {α : Type} (call : String → Except String α) (fallback : α) :
    List String → List String × Except String α
  | [] => ([], .ok fallback)
  | m :: ms =>
    match call m with
    | .ok a => ([m], .ok a)
    | .error e =>
      if toleratedModelError e then
        (m :: (modelFallbackLoop call fallback ms).1, (modelFallbackLoop call fallback ms).2)
      else ([m], .error e)

/-- The result object of `analyzeImageWithVision`; only the fields of its
final fallback value are modelled. -/
structure VisionResult where
  petType : String
  location : String
  activity : String
  people : String
  objects : String
  sceneDescription : String
deriving DecidableEq, Repr

/-- The fixed fallback returned when every vision model fails. -/
def visionFallbackResult : VisionResult :=
  { petType := "pet", location := "unknown", activity := "posing", people := "",
    objects := "", sceneDescription := "A pet in an everyday scene" }

/-- The `modelsToTry` list of `analyzeImageWithVision`. -/
def visionModels : List String := ["gpt-4o", "gpt-4-turbo", "gpt-4"]

/-- Function `analyzeImageWithVision`: the vision retry chain over its model list.
The per-model API call (and its JSON/regex response parsing) is the
abstract parameter `call`. -/
def analyzeImageWithVision (call : String → Except String VisionResult) :
    List String × Except String VisionResult :=
  modelFallbackLoop call visionFallbackResult visionModels

/-- A generated story: a title and the text of each page. -/
structure Story where
  title : String
  pages : List String
deriving DecidableEq, Repr

/-- The minimal story returned when every story model fails. -/
def fallbackStory (petName petType themeName : String) : Story :=
  { title := petName ++ "\x27s " ++ (if themeName = "" then "Adventure" else themeName)
    pages := ["Once upon a time, there was a " ++ (if petType = "" then "pet" else petType)
        ++ " named " ++ petName ++ " who went on an adventure.",
      petName ++ " had a wonderful time exploring and playing.",
      "At the end of the day, " ++ petName ++ " returned home, happy and tired."] }

/-- The `modelsToTry` list of `generateStoryWithFallback`. -/
def storyModels : List String := ["gpt-4o", "gpt-4-turbo", "gpt-4", "gpt-3.5-turbo"]

/-- Function `generateStoryWithFallback`: the story retry chain over its model list,
with the per-model call abstract and the fallback built from the pet name,
pet type and theme name. -/
def generateStoryWithFallback (call : String → Except String Story)
    (petName petType themeName : String) : List String × Except String Story :=
  modelFallbackLoop call (fallbackStory petName petType themeName) storyModels

theorem getLast?_cons_of_ne_nil {α : Type _} (a : α) {l : List α} (h : l ≠ []) :
    (a :: l).getLast? = l.getLast? := by
  cases l with
  | nil => exact absurd rfl h
  | cons b t => exact List.getLast?_cons_cons

theorem modelFallbackLoop_spec {α : Type} (call : String → Except String α) (fallback : α) :
    ∀ models : List String,
      ((modelFallbackLoop call fallback models).1
        = models.take (modelFallbackLoop call fallback models).1.length)
      ∧ (∀ m ∈ (modelFallbackLoop call fallback models).1.dropLast,
          ∃ e, call m = .error e ∧ toleratedModelError e = true)
      ∧ (∀ e, (modelFallbackLoop call fallback models).2 = .error e →
          ∃ m, (modelFallbackLoop call fallback models).1.getLast? = some m
            ∧ call m = .error e ∧ toleratedModelError e = false)
      ∧ ((∀ m ∈ models, ∃ e, call m = .error e ∧ toleratedModelError e = true) →
          (modelFallbackLoop call fallback models).1 = models
            ∧ (modelFallbackLoop call fallback models).2 = .ok fallback)
      ∧ (∀ a, (modelFallbackLoop call fallback models).2 = .ok a →
          a = fallback ∨ ∃ m, (modelFallbackLoop call fallback models).1.getLast? = some m
            ∧ call m = .ok a)
  | [] => by
    refine ⟨rfl, ?_, ?_, ?_, ?_⟩
    · intro m hm; simp [modelFallbackLoop] at hm
    · intro e he; simp [modelFallbackLoop] at he
    · intro _; exact ⟨rfl, rfl⟩
    · intro a ha
      simp only [modelFallbackLoop, Except.ok.injEq] at ha
      exact Or.inl ha.symm
  | m :: ms => by
    obtain ⟨ih1, ih2, ih3, ih4, ih5⟩ := modelFallbackLoop_spec call fallback ms
    cases hc : call m with
    | ok a =>
      have hval : modelFallbackLoop call fallback (m :: ms) = ([m], .ok a) := by
        simp [modelFallbackLoop, hc]
      rw [hval]
      refine ⟨rfl, ?_, ?_, ?_, ?_⟩
      · intro x hx; simp at hx
      · intro e he; simp at he
      · intro hall
        obtain ⟨e, he, _⟩ := hall m (List.mem_cons_self ..)
        rw [hc] at he; exact absurd he (by simp)
      · intro a' ha'
        simp only [Except.ok.injEq] at ha'
        exact Or.inr ⟨m, rfl, by rw [hc, ha']⟩
    | error e =>
      by_cases ht : toleratedModelError e = true
      · have hval : modelFallbackLoop call fallback (m :: ms)
            = (m :: (modelFallbackLoop call fallback ms).1,
               (modelFallbackLoop call fallback ms).2) := by
          simp [modelFallbackLoop, hc, ht]
        rw [hval]
        refine ⟨?_, ?_, ?_, ?_, ?_⟩
        · simp only [List.length_cons, List.take_succ_cons]
          rw [← ih1]
        · intro x hx
          cases hL : (modelFallbackLoop call fallback ms).1 with
          | nil =>
            rw [hL] at hx
            simp at hx
          | cons y t =>
            rw [hL] at hx
            rw [List.dropLast_cons_of_ne_nil (List.cons_ne_nil y t)] at hx
            rcases List.mem_cons.mp hx with h1 | h1
            · exact ⟨e, by rw [h1]; exact hc, ht⟩
            · apply ih2
              rw [hL]
              exact h1
        · intro e' he'
          obtain ⟨m', hlast, hcall, htol⟩ := ih3 e' he'
          have hne : (modelFallbackLoop call fallback ms).1 ≠ [] := by
            intro h0; rw [h0] at hlast; simp at hlast
          exact ⟨m', by rw [getLast?_cons_of_ne_nil m hne]; exact hlast, hcall, htol⟩
        · intro hall
          obtain ⟨h1, h2⟩ := ih4 (fun m' hm' => hall m' (List.mem_cons_of_mem _ hm'))
          exact ⟨by rw [h1], h2⟩
        · intro a ha
          rcases ih5 a ha with h1 | ⟨m', hlast, hcall⟩
          · exact Or.inl h1
          · have hne : (modelFallbackLoop call fallback ms).1 ≠ [] := by
              intro h0; rw [h0] at hlast; simp at hlast
            exact Or.inr ⟨m', by rw [getLast?_cons_of_ne_nil m hne]; exact hlast, hcall⟩
      · have ht' : toleratedModelError e = false := by
          rwa [Bool.not_eq_true] at ht
        have hval : modelFallbackLoop call fallback (m :: ms) = ([m], .error e) := by
          simp [modelFallbackLoop, hc, ht']
        rw [hval]
        refine ⟨rfl, ?_, ?_, ?_, ?_⟩
        · intro x hx; simp at hx
        · intro e' he'
          simp only [Except.error.injEq] at he'
          exact ⟨m, by simp, by rw [← he']; exact hc, by rw [← he']; exact ht'⟩
        · intro hall
          obtain ⟨e₀, he₀, ht₀⟩ := hall m (List.mem_cons_self ..)
          rw [hc] at he₀
          simp only [Except.error.injEq] at he₀
          rw [← he₀] at ht₀
          exact absurd ht₀ ht
        · intro a ha; simp at ha

/-- C4: both model-retry loops attempt their configured model names as a
consecutive initial segment of the list, every attempted model before the
last failed with a tolerated (404 / not-supported) error, an error result is
a rethrow of a non-tolerated error from the last attempted model, and when
every model fails in the tolerated way the whole list was attempted and the
fixed fallback value is returned instead of an error. -/
theorem modelRetry_chains :
    (∀ callV : String → Except String VisionResult,
      ((analyzeImageWithVision callV).1
        = visionModels.take (analyzeImageWithVision callV).1.length)
      ∧ (∀ m ∈ (analyzeImageWithVision callV).1.dropLast,
          ∃ e, callV m = .error e ∧ toleratedModelError e = true)
      ∧ (∀ e, (analyzeImageWithVision callV).2 = .error e →
          ∃ m, (analyzeImageWithVision callV).1.getLast? = some m
            ∧ callV m = .error e ∧ toleratedModelError e = false)
      ∧ ((∀ m ∈ visionModels, ∃ e, callV m = .error e ∧ toleratedModelError e = true) →
          (analyzeImageWithVision callV).1 = visionModels
            ∧ (analyzeImageWithVision callV).2 = .ok visionFallbackResult))
    ∧ (∀ (callS : String → Except String Story) (petName petType themeName : String),
      ((generateStoryWithFallback callS petName petType themeName).1
        = storyModels.take (generateStoryWithFallback callS petName petType themeName).1.length)
      ∧ (∀ m ∈ (generateStoryWithFallback callS petName petType themeName).1.dropLast,
          ∃ e, callS m = .error e ∧ toleratedModelError e = true)
      ∧ (∀ e, (generateStoryWithFallback callS petName petType themeName).2 = .error e →
          ∃ m, (generateStoryWithFallback callS petName petType themeName).1.getLast? = some m
            ∧ callS m = .error e ∧ toleratedModelError e = false)
      ∧ ((∀ m ∈ storyModels, ∃ e, callS m = .error e ∧ toleratedModelError e = true) →
          (generateStoryWithFallback callS petName petType themeName).1 = storyModels
            ∧ (generateStoryWithFallback callS petName petType themeName).2
              = .ok (fallbackStory petName petType themeName))) := by
  constructor
  · intro callV
    obtain ⟨h1, h2, h3, h4, _⟩ :=
      modelFallbackLoop_spec callV visionFallbackResult visionModels
    exact ⟨h1, h2, h3, h4⟩
  · intro callS petName petType themeName
    obtain ⟨h1, h2, h3, h4, _⟩ :=
      modelFallbackLoop_spec callS (fallbackStory petName petType themeName) storyModels
    exact ⟨h1, h2, h3, h4⟩

/-- A concrete vision call: tolerated failure on the first model, a
non-tolerated error on every other model. -/
def sampleVisionCall : String → Except String VisionResult :=
  fun m => if m = "gpt-4o" then .error "404 model not found" else .error "boom"

theorem modelRetry_chains_witness :
    ∃ m, (analyzeImageWithVision sampleVisionCall).1.getLast? = some m
      ∧ sampleVisionCall m = .error "boom" ∧ toleratedModelError "boom" = false :=
  (modelRetry_chains.1 sampleVisionCall).2.2.1 "boom" rfl

/-- Constant `MAX_IMAGE_SIZE_BYTES = 4 * 1024 * 1024` (4MB limit). -/
def MAX_IMAGE_SIZE_BYTES : Nat := 4 * 1024 * 1024

/-- Comparison `base64Data.length > MAX_BASE64_LENGTH` with
`MAX_BASE64_LENGTH = MAX_IMAGE_SIZE_BYTES * 1.37`, stated in exact integer
arithmetic: `len > 4194304 * 1.37` iff `100 * len > 137 * 4194304`.  (For
integer lengths this is also equivalent to the source's binary-float
comparison, whose threshold lies strictly between 5746237 and 5746238.) -/
def exceedsMaxBase64 (len : Nat) : Bool := 137 * MAX_IMAGE_SIZE_BYTES < 100 * len

/-- Rounding `Math.round (num / den)` on nonnegative values: round half up. -/
def jsRound (num den : Nat) : Nat := (2 * num + den) / (2 * den)

/-- Default `metadata.width || 1024`: a missing or zero dimension defaults to 1024. -/
def jsDim (n : Nat) : Nat := if n = 0 then 1024 else n

/-- Result of the resize computation in `compressImage`. -/
structure CompressResult where
  resized : Bool
  width : Nat
  height : Nat
deriving DecidableEq, Repr

/-- The dimension logic of `compressImage` in the stylize-images route: if a
side exceeds `maxDimension = 1024`, scale the larger side to 1024 and the
other proportionally with `Math.round`; the pixel re-encoding done by the
image library is not modelled. -/
def compressImage (metaWidth metaHeight : Nat) : CompressResult :=
  let width := jsDim metaWidth
  let height := jsDim metaHeight
  if width > 1024 || height > 1024 then
    if width > height then
      { resized := true, width := 1024, height := jsRound (height * 1024) width }
    else
      { resized := true, width := jsRound (width * 1024) height, height := 1024 }
  else
    { resized := false, width := width, height := height }

/-- One element of the stylize-images response array. -/
structure StylizeEntry where
  id : String
  originalImage : String
  stylizedImage : Option String
  error : Option String
deriving DecidableEq, Repr

/-- Default entry used only to state indexed lookups. -/
def defaultStylizeEntry : StylizeEntry :=
  { id := "", originalImage := "", stylizedImage := none, error := none }

/-- The per-image body of the stylize-images loop (index `i`): validate,
extract the base64 payload, compress it when it exceeds the size limit, call
the stylization service, and on any failure record the original image with an
error.  The boolean reports whether server-side compression was invoked.
`compress` is total, as the source's `compressImage` returns the original
image on any internal failure. -/
def processStylizeImage (compress : String → String) (stylize : String → Except String String)
    (i : Nat) (img : InPhoto) : StylizeEntry × Bool :=
  if img.base64 = "" ∨ img.base64.length < 100 then
    ({ id := img.id, originalImage := img.base64, stylizedImage := none,
       error := some ("Failed to stylize: Invalid image data for image "
         ++ toString (i + 1) ++ ": too short or missing") }, false)
  else
    let b0 := extractBase64 img.base64
    let invoked := exceedsMaxBase64 b0.length
    let b1 := if invoked then compress b0 else b0
    match stylize b1 with
    | .ok s =>
      ({ id := img.id, originalImage := img.base64,
         stylizedImage := some (if strContainsSub s "data:image" then s
           else "data:image/jpeg;base64," ++ s),
         error := none }, invoked)
    | .error msg =>
      ({ id := img.id, originalImage := img.base64, stylizedImage := none,
         error := some ("Failed to stylize: " ++ msg) }, invoked)

/-- The `for (let i = 0; i < images.length; i++)` stylization loop. -/
def stylizeLoop (compress : String → String) (stylize : String → Except String String) :
    Nat → List InPhoto → List StylizeEntry
  | _, [] => []
  | i, img :: rest =>
    (processStylizeImage compress stylize i img).1 :: stylizeLoop compress stylize (i + 1) rest

/-- Values `Object.values(STYLE_OPTIONS)` from `imageStylizer`. -/
def STYLE_OPTIONS_values : List String := ["cartoon", "watercolor", "ghibli", "flat-illustration"]

/-- The `stats` object of the stylize-images response. -/
structure StylizeStats where
  total : Nat
  successful : Nat
  failed : Nat
deriving DecidableEq, Repr

/-- The JSON body of a successful stylize-images response. -/
structure StylizeResponse where
  success : Bool
  stylizedImages : List StylizeEntry
  stats : StylizeStats
deriving DecidableEq, Repr

/-- JS truthiness of the `stylizedImage` field used by the success count. -/
def entryStylizedTruthy (e : StylizeEntry) : Bool :=
  match e.stylizedImage with
  | some s => !(s == "")
  | none => false

namespace StylizeImagesRoute

/-- The stylize-images `POST` handler: validate the image list and style,
process images sequentially, and return the entries with success stats. -/
def POST (compress : String → String) (stylize : String → Except String String)
    (images : List InPhoto) (style : String) : Except (Nat × String) StylizeResponse :=
  if images.isEmpty then .error (400, "No images provided or invalid format")
  else if !(STYLE_OPTIONS_values.contains style) then
    .error (400, "Invalid or missing style parameter")
  else
    let entries := stylizeLoop compress stylize 0 images
    let successCount := (entries.filter entryStylizedTruthy).length
    .ok { success := true, stylizedImages := entries,
          stats := { total := images.length, successful := successCount,
                     failed := images.length - successCount } }

end StylizeImagesRoute

theorem jsRound_le_1024 {a b : Nat} (hb : 0 < b) (hab : a ≤ b) : jsRound (a * 1024) b ≤ 1024 := by
  unfold jsRound
  have h2b : 0 < 2 * b := by omega
  have hlt := (Nat.div_lt_iff_lt_mul h2b).mpr
    (show 2 * (a * 1024) + b < 1025 * (2 * b) by omega)
  exact Nat.lt_succ_iff.mp hlt

theorem compressImage_spec (w h : Nat) :
    ((compressImage w h).resized = true ↔ (1024 < jsDim w ∨ 1024 < jsDim h))
    ∧ ((compressImage w h).resized = false →
        (compressImage w h).width = jsDim w ∧ (compressImage w h).height = jsDim h)
    ∧ ((compressImage w h).resized = true →
        (if jsDim h < jsDim w then (compressImage w h).width = 1024
         else (compressImage w h).height = 1024))
    ∧ (compressImage w h).width ≤ 1024 ∧ (compressImage w h).height ≤ 1024 := by
  by_cases hc : 1024 < jsDim w ∨ 1024 < jsDim h
  · have hcb : (jsDim w > 1024 || jsDim h > 1024) = true := by
      rcases hc with h1 | h1 <;> simp [h1]
    by_cases hwh : jsDim h < jsDim w
    · have hW : 1024 < jsDim w := by
        rcases hc with h1 | h1
        · exact h1
        · exact Nat.lt_trans h1 hwh
      have hval : compressImage w h
          = CompressResult.mk true 1024 (jsRound (jsDim h * 1024) (jsDim w)) := by
        simp [compressImage, hcb, hwh]
      rw [hval]
      have hround : jsRound (jsDim h * 1024) (jsDim w) ≤ 1024 :=
        jsRound_le_1024 (by omega) (Nat.le_of_lt hwh)
      exact ⟨by simp [hc], by simp, fun _ => by simp [hwh], by simp, hround⟩
    · have hH : 1024 < jsDim h := by
        rcases hc with h1 | h1
        · omega
        · exact h1
      have hval : compressImage w h
          = CompressResult.mk true (jsRound (jsDim w * 1024) (jsDim h)) 1024 := by
        simp [compressImage, hcb, hwh]
      rw [hval]
      have hround : jsRound (jsDim w * 1024) (jsDim h) ≤ 1024 :=
        jsRound_le_1024 (by omega) (by omega)
      exact ⟨by simp [hc], by simp, fun _ => by simp [hwh], hround, by simp⟩
  · push_neg at hc
    obtain ⟨hc1, hc2⟩ := hc
    have hcb : (jsDim w > 1024 || jsDim h > 1024) = false := by
      simp only [Bool.or_eq_false_iff, decide_eq_false_iff_not]
      omega
    have hval : compressImage w h = CompressResult.mk false (jsDim w) (jsDim h) := by
      simp [compressImage, hcb]
    rw [hval]
    refine ⟨by simp; omega, fun _ => ⟨rfl, rfl⟩, by simp, by simp; omega, by simp; omega⟩

/-- C5: in the stylize-images route, server-side compression is invoked on a
valid image exactly when the extracted base64 payload is longer than
`MAX_BASE64_LENGTH = 4*1024*1024*1.37` characters (stated exactly as
`100 * length > 137 * 4*1024*1024`), and the `compressImage` resize logic
fires exactly when a side exceeds 1024, maps the larger side to exactly 1024
with the other rounded proportionally, and never produces a dimension
above 1024. -/
theorem stylize_compression_bounds :
    (∀ (compress : String → String) (stylize : String → Except String String) (i : Nat)
        (img : InPhoto),
      (¬(img.base64 = "" ∨ img.base64.length < 100) →
        ((processStylizeImage compress stylize i img).2 = true
          ↔ 137 * (4 * 1024 * 1024) < 100 * (extractBase64 img.base64).length))
      ∧ ((img.base64 = "" ∨ img.base64.length < 100) →
          (processStylizeImage compress stylize i img).2 = false))
    ∧ (∀ w h : Nat,
      ((compressImage w h).resized = true ↔ (1024 < jsDim w ∨ 1024 < jsDim h))
      ∧ ((compressImage w h).resized = false →
          (compressImage w h).width = jsDim w ∧ (compressImage w h).height = jsDim h)
      ∧ ((compressImage w h).resized = true →
          (if jsDim h < jsDim w then (compressImage w h).width = 1024
           else (compressImage w h).height = 1024))
      ∧ (compressImage w h).width ≤ 1024 ∧ (compressImage w h).height ≤ 1024) := by
  constructor
  · intro compress stylize i img
    constructor
    · intro hval
      unfold processStylizeImage
      simp only [hval, if_false]
      cases stylize (if exceedsMaxBase64 (extractBase64 img.base64).length
          then compress (extractBase64 img.base64) else extractBase64 img.base64) <;>
        simp [exceedsMaxBase64, MAX_IMAGE_SIZE_BYTES]
    · intro hval
      unfold processStylizeImage
      simp [hval]
  · exact compressImage_spec

theorem stylize_compression_bounds_witness :
    (processStylizeImage id (fun _ => Except.ok "S") 0 { id := "a", base64 := longB64 }).2 = true
      ↔ 137 * (4 * 1024 * 1024) < 100 * (extractBase64 longB64).length :=
  (stylize_compression_bounds.1 id (fun _ => Except.ok "S") 0
    { id := "a", base64 := longB64 }).1 (by decide)

theorem stylizeLoop_length (compress : String → String) (stylize : String → Except String String) :
    ∀ (images : List InPhoto) (i : Nat), (stylizeLoop compress stylize i images).length
      = images.length
  | [], _ => rfl
  | _ :: rest, i => by
    simp only [stylizeLoop, List.length_cons]
    rw [stylizeLoop_length compress stylize rest (i + 1)]

theorem stylizeLoop_getD (compress : String → String) (stylize : String → Except String String) :
    ∀ (images : List InPhoto) (i j : Nat), j < images.length →
      (stylizeLoop compress stylize i images).getD j defaultStylizeEntry
        = (processStylizeImage compress stylize (i + j) (images.getD j defaultInPhoto)).1
  | [], _, j, hj => by simp at hj
  | img :: rest, i, 0, _ => by simp [stylizeLoop]
  | img :: rest, i, j + 1, hj => by
    simp only [stylizeLoop, List.getD_cons_succ]
    rw [stylizeLoop_getD compress stylize rest (i + 1) j (by simpa using hj)]
    have harith : i + 1 + j = i + (j + 1) := by omega
    rw [harith]

theorem processStylizeImage_entry (compress : String → String)
    (stylize : String → Except String String) (i : Nat) (img : InPhoto) :
    (processStylizeImage compress stylize i img).1.id = img.id
    ∧ (processStylizeImage compress stylize i img).1.originalImage = img.base64
    ∧ ((processStylizeImage compress stylize i img).1.stylizedImage.isSome
        ∨ (processStylizeImage compress stylize i img).1.error.isSome) := by
  unfold processStylizeImage
  by_cases hval : img.base64 = "" ∨ img.base64.length < 100
  · simp [hval]
  · simp only [hval, if_false]
    cases stylize (if exceedsMaxBase64 (extractBase64 img.base64).length
        then compress (extractBase64 img.base64) else extractBase64 img.base64) <;> simp

/-- C10: a valid stylize-images request returns one entry per input image in
input order, each preserving the input id and base64 original, each carrying
a stylized image or an error (never neither), and stats satisfying
`total = successful + failed = number of inputs`. -/
theorem stylizeImages_POST_entries (compress : String → String)
    (stylize : String → Except String String) (images : List InPhoto) (style : String)
    (h1 : images ≠ []) (h2 : style ∈ STYLE_OPTIONS_values) :
    ∃ resp, StylizeImagesRoute.POST compress stylize images style = .ok resp
      ∧ resp.success = true
      ∧ resp.stylizedImages.length = images.length
      ∧ (∀ j, j < images.length →
          (resp.stylizedImages.getD j defaultStylizeEntry).id
            = (images.getD j defaultInPhoto).id
          ∧ (resp.stylizedImages.getD j defaultStylizeEntry).originalImage
            = (images.getD j defaultInPhoto).base64
          ∧ ((resp.stylizedImages.getD j defaultStylizeEntry).stylizedImage.isSome
              ∨ (resp.stylizedImages.getD j defaultStylizeEntry).error.isSome))
      ∧ resp.stats.total = images.length
      ∧ resp.stats.successful + resp.stats.failed = resp.stats.total
      ∧ resp.stats.failed = resp.stats.total - resp.stats.successful := by
  have hne : images.isEmpty = false := by
    cases images with
    | nil => exact absurd rfl h1
    | cons a l => rfl
  have hcontains : STYLE_OPTIONS_values.contains style = true := by
    exact List.elem_eq_true_of_mem h2
  have hsc : ((stylizeLoop compress stylize 0 images).filter entryStylizedTruthy).length
      ≤ images.length := by
    calc ((stylizeLoop compress stylize 0 images).filter entryStylizedTruthy).length
        ≤ (stylizeLoop compress stylize 0 images).length := List.length_filter_le _ _
    _ = images.length := stylizeLoop_length compress stylize images 0
  refine ⟨{ success := true, stylizedImages := stylizeLoop compress stylize 0 images,
            stats := { total := images.length,
                       successful := ((stylizeLoop compress stylize 0 images).filter
                         entryStylizedTruthy).length,
                       failed := images.length - ((stylizeLoop compress stylize 0 images).filter
                         entryStylizedTruthy).length } }, ?_, rfl, ?_, ?_, rfl, ?_, ?_⟩
  · simp [StylizeImagesRoute.POST, hne, hcontains, h2]
  · exact stylizeLoop_length compress stylize images 0
  · intro j hj
    rw [stylizeLoop_getD compress stylize images 0 j hj]
    exact processStylizeImage_entry compress stylize (0 + j) (images.getD j defaultInPhoto)
  · show ((stylizeLoop compress stylize 0 images).filter entryStylizedTruthy).length
      + (images.length
        - ((stylizeLoop compress stylize 0 images).filter entryStylizedTruthy).length)
      = images.length
    omega
  · rfl

theorem stylizeImages_POST_entries_witness :
    ∃ resp, StylizeImagesRoute.POST id (fun _ => Except.ok "S")
      [{ id := "a", base64 := longB64 }] "cartoon" = .ok resp
      ∧ resp.stats.successful + resp.stats.failed = resp.stats.total := by
  obtain ⟨resp, hok, _, _, _, _, hsum, _⟩ :=
    stylizeImages_POST_entries id (fun _ => Except.ok "S")
      [{ id := "a", base64 := longB64 }] "cartoon" (List.cons_ne_nil _ _)
      (by decide)
  exact ⟨resp, hok, hsum⟩

/-- Response of the stylize-with-variation endpoint, together with the HTTP
status code it is sent with. -/
structure VariationResponse where
  status : Nat
  success : Bool
  stylizedImage : Option String
  method : Option String
  error : Option String
  fallbackError : Option String
deriving DecidableEq, Repr

/-- Outcome of one image-API call: `.ok (some b)` is a resolved response with
a base64 payload, `.ok none` a resolved response missing `data[0].b64_json`
(which the route turns into a thrown invalid-structure error), and `.error`
a rejected call. -/
abbrev ImageCallOutcome := Except String (Option String)

/-- Whether an image-API call produced a usable payload. -/
def imageCallPayload (o : ImageCallOutcome) : Option String :=
  match o with
  | .ok (some b) => some b
  | _ => none

namespace StylizeWithVariationRoute

/-- The DALL-E generation fallback of the stylize-with-variation handler:
called with the message of the variation failure; a resolved response without
`data[0].b64_json` becomes a thrown invalid-structure error. -/
def generationFallback (generation : ImageCallOutcome) (variationMsg : String) :
    VariationResponse :=
  match generation with
  | .ok (some b) =>
    { status := 200, success := true,
      stylizedImage := some ("data:image/jpeg;base64," ++ b),
      method := some "generation", error := none, fallbackError := none }
  | .ok none =>
    { status := 500, success := false, stylizedImage := none, method := none,
      error := some ("Failed to stylize image: " ++ variationMsg),
      fallbackError := some "DALL-E API returned invalid response structure" }
  | .error gm =>
    { status := 500, success := false, stylizedImage := none, method := none,
      error := some ("Failed to stylize image: " ++ variationMsg),
      fallbackError := some gm }

/-- The fallback chain of the stylize-with-variation `POST` handler, after
input validation and image preprocessing: try the variation API, fall back to
the generation API on any variation failure (a thrown error or an invalid
response structure), and answer 500 only when both fail.  The boolean records
whether the generation fallback was called. -/
def POST (variation generation : ImageCallOutcome) : VariationResponse × Bool :=
  match variation with
  | .ok (some b) =>
    ({ status := 200, success := true,
       stylizedImage := some ("data:image/jpeg;base64," ++ b),
       method := some "variation", error := none, fallbackError := none }, false)
  | .ok none =>
    (generationFallback generation "Variation API returned invalid response structure", true)
  | .error vm =>
    (generationFallback generation vm, true)

end StylizeWithVariationRoute

/-- C6: the stylize-with-variation endpoint calls the generation API exactly
when the variation call produced no usable payload; a success response
reports method `variation` exactly when the variation call succeeded and
`generation` exactly when only the generation fallback succeeded; and a 500
response occurs exactly when both calls fail. -/
theorem stylizeWithVariation_chain (variation generation : ImageCallOutcome) :
    ((StylizeWithVariationRoute.POST variation generation).2 = true
      ↔ imageCallPayload variation = none)
    ∧ ((StylizeWithVariationRoute.POST variation generation).1.method = some "variation"
      ↔ (imageCallPayload variation).isSome)
    ∧ ((StylizeWithVariationRoute.POST variation generation).1.method = some "generation"
      ↔ (imageCallPayload variation = none ∧ (imageCallPayload generation).isSome))
    ∧ ((StylizeWithVariationRoute.POST variation generation).1.status = 500
      ↔ (imageCallPayload variation = none ∧ imageCallPayload generation = none))
    ∧ ((StylizeWithVariationRoute.POST variation generation).1.success = true
      ↔ (StylizeWithVariationRoute.POST variation generation).1.status = 200) := by
  rcases variation with vmsg | vopt
  · rcases generation with gmsg | gopt
    · simp [StylizeWithVariationRoute.POST, StylizeWithVariationRoute.generationFallback,
        imageCallPayload]
    · rcases gopt with _ | c <;>
        simp [StylizeWithVariationRoute.POST, StylizeWithVariationRoute.generationFallback,
          imageCallPayload]
  · rcases vopt with _ | b
    · rcases generation with gmsg | gopt
      · simp [StylizeWithVariationRoute.POST, StylizeWithVariationRoute.generationFallback,
          imageCallPayload]
      · rcases gopt with _ | c <;>
          simp [StylizeWithVariationRoute.POST, StylizeWithVariationRoute.generationFallback,
            imageCallPayload]
    · simp [StylizeWithVariationRoute.POST, imageCallPayload]

/-- One stored stylized image on the book-preview page. -/
structure StyledImage where
  id : String
  stylizedImage : Option String
deriving DecidableEq, Repr

/-- The React state of the book-preview page that `handleStyleChange`
touches: the selected style, the busy flag, the error text and the
`stylizedImages` record keyed by style name. -/
structure PreviewState where
  selectedStyle : String
  isStylizing : Bool
  errorMsg : String
  stylizedImages : List (String × List StyledImage)
deriving DecidableEq, Repr

/-- Lookup `stylizedImages[style]` in the record. -/
def lookupStyle (m : List (String × List StyledImage)) (k : String) :
    Option (List StyledImage) :=
  (m.find? (fun e => e.1 == k)).map Prod.snd

/-- Update `{...prev, [style]: images}` of the record, replacing an existing key or
appending a new one. -/
def setStyle (m : List (String × List StyledImage)) (k : String) (v : List StyledImage) :
    List (String × List StyledImage) :=
  match m with
  | [] => [(k, v)]
  | (k', v') :: rest => if k' = k then (k, v) :: rest else (k', v') :: setStyle rest k v

namespace BookPreviewPage

/-- The try/catch around the stylize API call in `handleStyleChange`: a
success stores the returned images under the style key, a failure records the
error message; either way the busy flag ends false. -/
def callStylizeApi (api : Except String (List StyledImage)) (st : PreviewState)
    (style : String) : PreviewState × Bool :=
  match api with
  | .ok imgs =>
    (PreviewState.mk style false "" (setStyle st.stylizedImages style imgs), true)
  | .error msg =>
    (PreviewState.mk style false ("Failed to stylize images: " ++ msg) st.stylizedImages, true)

/-- Handler `handleStyleChange` from the book-preview page: selecting `original` just
switches the view; a style whose key maps to a non-empty cached list skips
the API call; otherwise the stylize API is called.  The boolean reports
whether the stylize API was called. -/
def handleStyleChange (api : Except String (List StyledImage)) (st : PreviewState)
    (style : String) : PreviewState × Bool :=
  if style = "original" then
    ({ st with selectedStyle := "original" }, false)
  else
    match lookupStyle st.stylizedImages style with
    | some cached =>
      if cached.length > 0 then
        (PreviewState.mk style false "" st.stylizedImages, false)
      else
        callStylizeApi api st style
    | none => callStylizeApi api st style

end BookPreviewPage

/-- C7: selecting an art style whose key already maps to a non-empty cached
list performs no stylize API call and leaves the stored stylized images of
every style unchanged; the API is called exactly for a non-`original` style
with no cached images. -/
theorem handleStyleChange_cache (api : Except String (List StyledImage))
    (st : PreviewState) (style : String) :
    (∀ cached, lookupStyle st.stylizedImages style = some cached → cached ≠ [] →
      (BookPreviewPage.handleStyleChange api st style).2 = false
      ∧ (BookPreviewPage.handleStyleChange api st style).1.stylizedImages
        = st.stylizedImages)
    ∧ ((BookPreviewPage.handleStyleChange api st style).2 = true
      ↔ (style ≠ "original"
        ∧ (lookupStyle st.stylizedImages style = none
          ∨ lookupStyle st.stylizedImages style = some []))) := by
  by_cases horig : style = "original"
  · constructor
    · intro cached _ _
      simp [BookPreviewPage.handleStyleChange, horig]
    · simp [BookPreviewPage.handleStyleChange, horig]
  · cases hlook : lookupStyle st.stylizedImages style with
    | some cached =>
      cases cached with
      | nil =>
        constructor
        · intro cached' hcached' hne
          simp only [Option.some.injEq] at hcached'
          exact absurd hcached'.symm hne
        · cases api <;>
            simp [BookPreviewPage.handleStyleChange, BookPreviewPage.callStylizeApi,
              horig, hlook]
      | cons x xs =>
        constructor
        · intro cached' hcached' _
          simp [BookPreviewPage.handleStyleChange, horig, hlook]
        · simp [BookPreviewPage.handleStyleChange, horig, hlook]
    | none =>
      constructor
      · intro cached hcached _
        exact absurd hcached (by simp)
      · cases api <;>
          simp [BookPreviewPage.handleStyleChange, BookPreviewPage.callStylizeApi,
            horig, hlook]

/-- A concrete preview state with cached cartoon images. -/
def samplePreviewState : PreviewState :=
  { selectedStyle := "original", isStylizing := false, errorMsg := "",
    stylizedImages := [("cartoon", [{ id := "a", stylizedImage := some "img" }])] }

theorem handleStyleChange_cache_witness :
    (BookPreviewPage.handleStyleChange (Except.error "down") samplePreviewState "cartoon").2
        = false
    ∧ (BookPreviewPage.handleStyleChange (Except.error "down")
        samplePreviewState "cartoon").1.stylizedImages
      = samplePreviewState.stylizedImages :=
  (handleStyleChange_cache (Except.error "down") samplePreviewState "cartoon").1
    [{ id := "a", stylizedImage := some "img" }] (by decide) (by decide)

/-- A client-side processed photo: the id and the (compressed) base64 data
produced by `convertPhotosToBase64`. -/
structure B64Photo where
  id : String
  base64 : String
deriving DecidableEq, Repr

/-- Observable outcome of `handleSubmit` on the upload page: what was written
to session storage, whether the page navigated, and the error text. -/
structure SubmitResult where
  navigatedTo : Option String
  storedPetInfo : Option (String × String)
  storedOwnerInfo : Option String
  storedPhotos : Option (List B64Photo)
  errorMsg : String
deriving DecidableEq, Repr

namespace UploadPage

/-- Handler `handleSubmit` from the upload page.  `photosCount` is the number of
selected photos, `base64Photos` the output of `convertPhotosToBase64` (photos
whose processing failed are already dropped there), and `storeOk l` says
whether `sessionStorage.setItem('petTales_photos', JSON.stringify(l))`
succeeds (it throws on quota overflow).  When storing the full list fails and
more than 3 photos were processed, only the first 3 are stored with a
warning; the submit still navigates to the analysis page. -/
def handleSubmit (storeOk : List B64Photo → Bool) (petName petType ownerName : String)
    (photosCount : Nat) (base64Photos : List B64Photo) : SubmitResult :=
  if photosCount = 0 then
    { navigatedTo := none, storedPetInfo := none, storedOwnerInfo := none,
      storedPhotos := none, errorMsg := "Please upload at least one photo" }
  else if petName = "" then
    { navigatedTo := none, storedPetInfo := none, storedOwnerInfo := none,
      storedPhotos := none, errorMsg := "Please enter your pet\x27s name" }
  else if base64Photos.isEmpty then
    { navigatedTo := none, storedPetInfo := none, storedOwnerInfo := none,
      storedPhotos := none,
      errorMsg := "Failed to process photos. Please try again with fewer or smaller photos." }
  else if storeOk base64Photos then
    { navigatedTo := some "/analysis", storedPetInfo := some (petName, petType),
      storedOwnerInfo := some ownerName, storedPhotos := some base64Photos, errorMsg := "" }
  else if base64Photos.length > 3 then
    if storeOk (base64Photos.take 3) then
      { navigatedTo := some "/analysis", storedPetInfo := some (petName, petType),
        storedOwnerInfo := some ownerName, storedPhotos := some (base64Photos.take 3),
        errorMsg := "Only the first 3 photos could be processed due to storage limitations." }
    else
      { navigatedTo := none, storedPetInfo := some (petName, petType),
        storedOwnerInfo := some ownerName, storedPhotos := none,
        errorMsg := "Failed to process photos. Please try again with fewer or smaller photos." }
  else
    { navigatedTo := none, storedPetInfo := some (petName, petType),
      storedOwnerInfo := some ownerName, storedPhotos := none,
      errorMsg := "Failed to process photos. Please try again with fewer or smaller photos." }

end UploadPage

/-- Four concrete processed photos used by the C8 counterexample. -/
def fourPhotos : List B64Photo :=
  [{ id := "1", base64 := "d1" }, { id := "2", base64 := "d2" },
   { id := "3", base64 := "d3" }, { id := "4", base64 := "d4" }]

/-- A storage model that overflows on more than 3 photos. -/
def smallQuota : List B64Photo → Bool := fun l => l.length ≤ 3

/-- C8 counterexample: with four successfully processed photos and a session
storage whose quota only fits three, `handleSubmit` still navigates to the
analysis page (a successful submit) but stores only the first 3 photos, not
every successfully processed photo. -/
theorem handleSubmit_partial_storage :
    (UploadPage.handleSubmit smallQuota "Rex" "dog" "Sam" 4 fourPhotos).navigatedTo
      = some "/analysis"
    ∧ (UploadPage.handleSubmit smallQuota "Rex" "dog" "Sam" 4 fourPhotos).storedPhotos
      ≠ some fourPhotos
    ∧ (UploadPage.handleSubmit smallQuota "Rex" "dog" "Sam" 4 fourPhotos).storedPhotos
      = some (fourPhotos.take 3) := by
  refine ⟨rfl, ?_, rfl⟩
  decide

/-- C8 (amended): after a submit that navigates to the analysis page, the pet
metadata and owner info are stored, and the processed photos are stored
either in full (when storing the full list succeeds) or, when the full-list
store fails and more than 3 photos were processed, only the first 3 of them
(with a storage-limit warning). -/
theorem handleSubmit_stores (storeOk : List B64Photo → Bool)
    (petName petType ownerName : String) (photosCount : Nat)
    (base64Photos : List B64Photo)
    (h : (UploadPage.handleSubmit storeOk petName petType ownerName photosCount
      base64Photos).navigatedTo = some "/analysis") :
    (UploadPage.handleSubmit storeOk petName petType ownerName photosCount
        base64Photos).storedPetInfo = some (petName, petType)
    ∧ (UploadPage.handleSubmit storeOk petName petType ownerName photosCount
        base64Photos).storedOwnerInfo = some ownerName
    ∧ ((storeOk base64Photos = true
        ∧ (UploadPage.handleSubmit storeOk petName petType ownerName photosCount
            base64Photos).storedPhotos = some base64Photos)
      ∨ (storeOk base64Photos = false ∧ base64Photos.length > 3
        ∧ storeOk (base64Photos.take 3) = true
        ∧ (UploadPage.handleSubmit storeOk petName petType ownerName photosCount
            base64Photos).storedPhotos = some (base64Photos.take 3)
        ∧ (UploadPage.handleSubmit storeOk petName petType ownerName photosCount
            base64Photos).errorMsg
          = "Only the first 3 photos could be processed due to storage limitations.")) := by
  by_cases h0 : photosCount = 0
  · simp [UploadPage.handleSubmit, h0] at h
  by_cases h1 : petName = ""
  · simp [UploadPage.handleSubmit, h0, h1] at h
  by_cases h2 : base64Photos.isEmpty
  · simp [UploadPage.handleSubmit, h0, h1, h2] at h
  by_cases h3 : storeOk base64Photos
  · simp only [UploadPage.handleSubmit, h0, h1, h2, h3]
    simp
  by_cases h4 : base64Photos.length > 3
  · by_cases h5 : storeOk (base64Photos.take 3)
    · simp only [UploadPage.handleSubmit, h0, h1, h2, h3, h4, h5]
      simp only [Bool.not_eq_true] at h3
      simp [h3, h4, h5]
    · exfalso
      simp [UploadPage.handleSubmit, h0, h1, h2, h3, h4, h5] at h
  · exfalso
    simp [UploadPage.handleSubmit, h0, h1, h2, h3, h4] at h

theorem handleSubmit_stores_witness :
    (UploadPage.handleSubmit smallQuota "Rex" "dog" "Sam" 4 fourPhotos).storedPetInfo
      = some ("Rex", "dog")
    ∧ (UploadPage.handleSubmit smallQuota "Rex" "dog" "Sam" 4 fourPhotos).storedOwnerInfo
      = some "Sam" := by
  obtain ⟨hp, ho, _⟩ := handleSubmit_stores smallQuota "Rex" "dog" "Sam" 4 fourPhotos rfl
  exact ⟨hp, ho⟩

end PetStory
